import Mathlib

/-!
Verification development for the terminal-screenshot rendering subsystem
(`internal/img/output.go`). The Go code is shallowly embedded: Go strings
become `List Char`, Go `float64` geometry becomes `ℚ` (all arithmetic used by
the program on these values is exact), Go `int` becomes `Int` or `Nat` where
the value is provably non-negative, Go maps become association lists with the
appropriate lookup direction, and calls into external libraries (the styled
text decoder `bunt`, font rasterisation, the stack-blur filter) are modelled
as explicit parameters.  Fallible operations return `Except` or are paired
with an error flag, mirroring Go's `(result, error)` convention.
-/

namespace Termshot

/-- One decoded styled character, mirroring `bunt.ColoredRune`:
a 64-bit `Settings` bitfield and the rune `Symbol`. -/
structure ColoredRune where
  Settings : Nat
  Symbol : Char
deriving DecidableEq

/-- An RGBA color value, mirroring Go's `color.RGBA` (four 8-bit channels). -/
structure RGBA where
  r : Nat
  g : Nat
  b : Nat
  a : Nat
deriving DecidableEq

/-- The four font-face slots of the scaffold (regular/bold/italic/bold-italic). -/
inductive Face where
  | regularFace
  | boldFace
  | italicFace
  | boldItalicFace
deriving DecidableEq

/-- The scaffold state from `output.go` (`type Scaffold struct`), restricted to
the fields the embedded operations read.  Font faces are kept external (see
`FontMetrics`); `columns` is a Go `int` that is non-negative in every modelled
configuration (0 means "derive from terminal width"). -/
structure Scaffold where
  content : List ColoredRune
  factor : ℚ
  columns : Nat
  defaultForegroundColor : RGBA
  defaultBackgroundColor : RGBA
  customColors : Option (List (Int × RGBA))
  clipCanvas : Bool
  drawDecorations : Bool
  drawShadow : Bool
  drawBorder : Bool
  shadowBaseColor : String
  shadowRadius : Nat
  shadowOffsetX : ℚ
  shadowOffsetY : ℚ
  paddingTop : ℚ
  paddingRight : ℚ
  paddingBottom : ℚ
  paddingLeft : ℚ
  marginTop : ℚ
  marginRight : ℚ
  marginBottom : ℚ
  marginLeft : ℚ
  lineSpacing : ℚ
  tabSpaces : Nat

/-- External font measurement capabilities (the `imgfont.Face` values of the
scaffold are only ever queried through these): `fontHeight` is
`regular.Metrics().Height >> 6`, `lineWidth` is `Drawer.MeasureString` under
the regular face, `measure` is `dc.MeasureString` under the currently selected
face, returning (advance width, height). -/
structure FontMetrics where
  fontHeight : ℚ
  lineWidth : List Char → ℚ
  measure : Face → Char → ℚ × ℚ

/-- `Scaffold.GetFixedColumns`: the configured column count, or the
terminal-derived count when the configured value is zero. -/
def getFixedColumns (columns terminalCols : Nat) : Nat :=
  if columns ≠ 0 then columns else terminalCols

/-- The loop body of `Scaffold.AddContent` (lines 1187-1207): walk the decoded
runes keeping a logical column counter; a newline resets the counter; when the
counter exceeds the fixed column count, a synthetic newline carrying the
current rune's `Settings` is emitted before that rune and the counter is
reset. -/
def addContentLoop (cols : Nat) : Nat → List ColoredRune → List ColoredRune
  | _, [] => []
  | counter, cr :: rest =>
    let counter1 := counter + 1
    let counter2 := if cr.Symbol = '\n' then 0 else counter1
    if counter2 > cols then
      ⟨cr.Settings, '\n'⟩ :: cr :: addContentLoop cols 0 rest
    else
      cr :: addContentLoop cols counter2 rest

/-- `Scaffold.AddContent`: the external decoder `bunt.ParseStream` is modelled
by the `parsed` argument (`Except` mirrors its `(result, error)` return); on
decode failure the wrapped error is returned and the scaffold is untouched;
otherwise the wrapped runes are appended to the content buffer. -/
def addContent (s : Scaffold) (terminalCols : Nat)
    (parsed : Except String (List ColoredRune)) : Scaffold × Option String :=
  match parsed with
  | Except.error e => (s, some ("failed to parse input stream: " ++ e))
  | Except.ok runes =>
      ({ s with content :=
          s.content ++ addContentLoop (getFixedColumns s.columns terminalCols) 0 runes },
        none)

/-- `Scaffold.WriteRaw`: writes `s.content.String()`; the external `bunt`
styled-text encoder is the parameter `enc`, producing the output bytes. -/
def writeRaw (enc : List ColoredRune → List Nat) (s : Scaffold) : List Nat :=
  enc s.content

/-- `strings.TrimPrefix(hexStr, "#")`: drop one leading hash character. -/
def trimHashChar : List Char → List Char
  | '#' :: rest => rest
  | s => s

/-- `encoding/hex` digit decoding (`fromHexChar`): the value of one hex digit,
accepting both lowercase and uppercase letters. -/
def hexDigitValue (ch : Char) : Option Nat :=
  if '0' ≤ ch ∧ ch ≤ '9' then some (ch.toNat - '0'.toNat)
  else if 'a' ≤ ch ∧ ch ≤ 'f' then some (ch.toNat - 'a'.toNat + 10)
  else if 'A' ≤ ch ∧ ch ≤ 'F' then some (ch.toNat - 'A'.toNat + 10)
  else none

/-- `hex.DecodeString`: decode pairs of hex digits into bytes; fails on an odd
length or any non-hex character. -/
def hexDecode : List Char → Option (List Nat)
  | [] => some []
  | [_] => none
  | c1 :: c2 :: rest =>
    match hexDigitValue c1, hexDigitValue c2, hexDecode rest with
    | some hi, some lo, some bs => some ((16 * hi + lo) :: bs)
    | _, _, _ => none

/-- `parseHexColor` (lines 1010-1022): strip an optional `#`, require exactly
six characters, hex-decode them, and return the fully opaque color. -/
def parseHexColor (hexStr : List Char) : Except String RGBA :=
  let t := trimHashChar hexStr
  if t.length ≠ 6 then
    Except.error "hex color must be 6 characters long"
  else
    match hexDecode t with
    | none => Except.error "invalid hex color"
    | some rgb => Except.ok ⟨rgb.getD 0 0, rgb.getD 1 0, rgb.getD 2 0, 255⟩

/-- Whether a Go-style fallible call returned a result rather than an error. -/
def isOkResult {ε α : Type} : Except ε α → Bool
  | Except.ok _ => true
  | Except.error _ => false

/-- Go map-literal lookup: later duplicate keys overwrite earlier ones, so a
lookup searches the entry list from the back. -/
def goMapLookup (l : List ((Int × Int × Int) × Int)) (k : Int × Int × Int) : Option Int :=
  l.reverse.lookup k

/-- The `standardColors` map literal of `mapStandardColor` (lines 1041-1095),
in source order: exact-match reference RGB triples for the 16 ANSI slots from
several terminal-emulator conventions. -/
def standardColorsList : List ((Int × Int × Int) × Int) :=
  [ ((0, 0, 0), 0),
    ((128, 0, 0), 1),
    ((0, 128, 0), 2),
    ((128, 128, 0), 3),
    ((0, 0, 128), 4),
    ((128, 0, 128), 5),
    ((0, 128, 128), 6),
    ((192, 192, 192), 7),
    ((128, 128, 128), 8),
    ((255, 0, 0), 9),
    ((0, 255, 0), 10),
    ((255, 255, 0), 11),
    ((0, 0, 255), 12),
    ((255, 0, 255), 13),
    ((0, 255, 255), 14),
    ((255, 255, 255), 15),
    ((0, 0, 0), 0),
    ((205, 0, 0), 1),
    ((0, 205, 0), 2),
    ((205, 205, 0), 3),
    ((0, 0, 238), 4),
    ((205, 0, 205), 5),
    ((0, 205, 205), 6),
    ((229, 229, 229), 7),
    ((127, 127, 127), 8),
    ((255, 0, 0), 9),
    ((0, 255, 0), 10),
    ((255, 255, 0), 11),
    ((92, 92, 255), 12),
    ((255, 0, 255), 13),
    ((0, 255, 255), 14),
    ((255, 255, 255), 15),
    ((0, 0, 0), 0),
    ((194, 54, 33), 1),
    ((37, 188, 36), 2),
    ((173, 173, 39), 3),
    ((73, 46, 225), 4),
    ((211, 56, 211), 5),
    ((51, 187, 200), 6),
    ((203, 204, 205), 7),
    ((129, 131, 131), 8),
    ((252, 57, 31), 9),
    ((49, 231, 34), 10),
    ((234, 236, 35), 11),
    ((88, 51, 255), 12),
    ((249, 53, 248), 13),
    ((20, 240, 240), 14),
    ((233, 235, 235), 15) ]

/-- The `ansiColors` reference table of `findClosestColor` (lines 1115-1134):
`(r, g, b, index)` for the 16 canonical ANSI colors. -/
def ansiColors : List (Int × Int × Int × Int) :=
  [ (0, 0, 0, 0),
    (128, 0, 0, 1),
    (0, 128, 0, 2),
    (128, 128, 0, 3),
    (0, 0, 128, 4),
    (128, 0, 128, 5),
    (0, 128, 128, 6),
    (192, 192, 192, 7),
    (128, 128, 128, 8),
    (255, 0, 0, 9),
    (0, 255, 0, 10),
    (255, 255, 0, 11),
    (0, 0, 255, 12),
    (255, 0, 255, 13),
    (0, 255, 255, 14),
    (255, 255, 255, 15) ]

/-- The squared Euclidean RGB distance computed inside the loop of
`findClosestColor` (lines 1141-1144). -/
def distSq (r g b : Int) (e : Int × Int × Int × Int) : Int :=
  (r - e.1) * (r - e.1) + (g - e.2.1) * (g - e.2.1) + (b - e.2.2.1) * (b - e.2.2.1)

/-- One iteration of the minimum-distance loop of `findClosestColor`
(lines 1139-1150): keep the strictly smaller distance with its slot index. -/
def closestStep (r g b : Int) (acc : Int × Int) (e : Int × Int × Int × Int) : Int × Int :=
  if distSq r g b e < acc.1 then (distSq r g b e, e.2.2.2) else acc

/-- `findClosestColor` (lines 1109-1161): with a loaded scheme, take the
minimum squared distance over `ansiColors` starting from `math.MaxInt` and no
index; accept the closest slot only below the threshold 10000 and only when
the scheme overrides that slot. -/
def findClosestColor (customColors : Option (List (Int × RGBA))) (r g b : Int) :
    Option RGBA :=
  match customColors with
  | none => none
  | some cc =>
    let res := ansiColors.foldl (closestStep r g b) (9223372036854775807, -1)
    if res.2 ≥ 0 ∧ res.1 < 10000 then
      match cc.lookup res.2 with
      | some customColor => some customColor
      | none => none
    else none

/-- `mapStandardColor` (lines 1035-1106): with a loaded scheme, first try the
exact-match table; on an exact hit whose slot carries an override, return it;
otherwise fall back to the nearest-color search.  `none` models the Go return
`(nil, false)`. -/
def mapStandardColor (customColors : Option (List (Int × RGBA))) (r g b : Int) :
    Option RGBA :=
  match customColors with
  | none => none
  | some cc =>
    match goMapLookup standardColorsList (r, g, b) with
    | some colorIndex =>
      match cc.lookup colorIndex with
      | some customColor => some customColor
      | none => findClosestColor (some cc) r g b
    | none => findClosestColor (some cc) r g b

/-- `strings.TrimSuffix(string(tmp), "\n")` in `measureContent`: remove one
trailing newline if present. -/
def trimSuffixNewline (s : List Char) : List Char :=
  if s.getLast? = some '\n' then s.dropLast else s

/-- `strings.Split(s, "\n")`: splitting on single newline characters; the
empty string yields one empty piece, and n separators yield n+1 pieces. -/
def splitOnNewline : List Char → List (List Char)
  | [] => [[]]
  | c :: rest =>
    match splitOnNewline rest with
    | [] => [[]]
    | line :: more => if c = '\n' then [] :: line :: more else (c :: line) :: more

/-- `Scaffold.measureContent` (lines 1218-1253): logical lines are obtained by
trimming one trailing newline and splitting on newlines; the width is the
longest line's advance (columns = 0) or the advance of a run of `'a'`
characters of the fixed column count; the height is the line count times font
height times line spacing. -/
def measureContent (s : Scaffold) (m : FontMetrics) (terminalCols : Nat) : ℚ × ℚ :=
  let tmp := s.content.map (fun cr => cr.Symbol)
  let lines := splitOnNewline (trimSuffixNewline tmp)
  let width : ℚ :=
    if s.columns = 0 then
      lines.foldl (fun w line =>
        let lineW := m.lineWidth line
        if lineW > w then lineW else w) 0
    else
      m.lineWidth (List.replicate (getFixedColumns s.columns terminalCols) 'a')
  let height : ℚ := (lines.length : ℚ) * m.fontHeight * s.lineSpacing
  (width, height)

/-- The color-resolution state of the scaffold that `LoadColorscheme` mutates:
the custom color map (`none` models a nil Go map, i.e. no scheme loaded) and
the two default colors. -/
structure SchemeState where
  customColors : Option (List (Int × RGBA))
  defaultForegroundColor : RGBA
  defaultBackgroundColor : RGBA
deriving DecidableEq

/-- The outcome of the two `json.Unmarshal` attempts in `LoadColorscheme`:
the data parses as an array of scheme objects, as a single scheme object
(and not as an array), or as neither.  A scheme object is its `colors`
string-to-string map, modelled as an association list with unique keys. -/
inductive ColorschemeJson where
  | arr (schemes : List (List (String × String)))
  | obj (colors : List (String × String))
  | malformed
deriving DecidableEq

/-- The `for i := 0; i < 16; i++` loop of `LoadColorscheme` (both branches):
look up `color<i>`, parse it, and insert it into the custom color map;
a parse failure aborts immediately, keeping the entries inserted so far. -/
def loadColorsLoop (colors : List (String × String)) :
    List Nat → List (Int × RGBA) → List (Int × RGBA) × Bool
  | [], acc => (acc, false)
  | i :: rest, acc =>
    match colors.lookup ("color" ++ toString i) with
    | none => loadColorsLoop colors rest acc
    | some hexColor =>
      match parseHexColor hexColor.data with
      | Except.error _ => (acc, true)
      | Except.ok c => loadColorsLoop colors rest (acc ++ [((i : Int), c)])

/-- The trailing `background` handling of `LoadColorscheme`: parse and assign
the default background if the key is present; a parse failure aborts with the
state as it stands. -/
def applyBackground (st : SchemeState) (colors : List (String × String)) :
    SchemeState × Bool :=
  match colors.lookup "background" with
  | some backgroundHex =>
    match parseHexColor backgroundHex.data with
    | Except.error _ => (st, true)
    | Except.ok c => ({ st with defaultBackgroundColor := c }, false)
  | none => (st, false)

/-- The shared body of both `LoadColorscheme` branches, applied to one scheme
object: run the 16-color loop (its partial result is the new custom color
map even on failure, since Go assigns into `s.customColors` directly), then
the optional `foreground`, then the optional `background`. -/
def applyScheme (st : SchemeState) (colors : List (String × String)) :
    SchemeState × Bool :=
  match loadColorsLoop colors (List.range 16) [] with
  | (cc, true) => ({ st with customColors := some cc }, true)
  | (cc, false) =>
    let st1 : SchemeState := { st with customColors := some cc }
    match colors.lookup "foreground" with
    | some foregroundHex =>
      match parseHexColor foregroundHex.data with
      | Except.error _ => (st1, true)
      | Except.ok c => applyBackground { st1 with defaultForegroundColor := c } colors
    | none => applyBackground st1 colors

/-- `Scaffold.LoadColorscheme` (lines 920-1007): `none` input models an
`os.ReadFile` failure (returned before any mutation); otherwise the custom
color map is reset to a fresh empty map, and the parsed data is applied: the
first element of an array, a single object, or — when the data is an empty
array or unmarshals as neither shape — a parse error after the reset. -/
def loadColorscheme (st : SchemeState) (file : Option ColorschemeJson) :
    SchemeState × Bool :=
  match file with
  | none => (st, true)
  | some parsed =>
    let st0 : SchemeState := { st with customColors := some [] }
    match parsed with
    | ColorschemeJson.arr (scheme :: _) => applyScheme st0 scheme
    | ColorschemeJson.arr [] => (st0, true)
    | ColorschemeJson.obj colors => applyScheme st0 colors
    | ColorschemeJson.malformed => (st0, true)

/-- The trace alphabet of drawing-context calls made by `image` (the `gg`
drawing primitives are infallible; the trace records each call in order). -/
inductive DrawOp where
  | setFontFace (face : Face)
  | setColor (c : RGBA)
  | setRGB255 (r g b : Int)
  | setHexColor (hex : String)
  | setLineWidth (w : ℚ)
  | fillPath
  | strokePath
  | drawRoundedRect (x y w h r : ℚ)
  | drawCircle (x y r : ℚ)
  | drawRect (x y w h : ℚ)
  | drawStr (c : Char) (x y : ℚ)
  | drawLine (x1 y1 x2 y2 : ℚ)
  | drawImage (ops : List DrawOp) (x y : Int)

/-- Font-face selection at the top of the glyph loop (lines 1336-1348):
dispatch on `Settings & 0x1C`. -/
def faceOfSettings (settings : Nat) : Face :=
  match settings &&& 0x1C with
  | 4 => Face.boldFace
  | 8 => Face.italicFace
  | 12 => Face.boldItalicFace
  | _ => Face.regularFace

/-- The color-selection calls shared by the background and foreground cases of
the glyph loop: a resolved custom color or the raw RGB value. -/
def colorOps (customColors : Option (List (Int × RGBA))) (r g b : Int) : List DrawOp :=
  match mapStandardColor customColors r g b with
  | some customColor => [DrawOp.setColor customColor]
  | none => [DrawOp.setRGB255 r g b]

/-- The background-cell case of the glyph loop (lines 1354-1368): when the
background-set flag (bit 1) is on, select the color and fill a rectangle of
the glyph's advance behind it. -/
def bgOps (s : Scaffold) (cr : ColoredRune) (x y w h : ℚ) : List DrawOp :=
  if cr.Settings &&& 0x02 = 2 then
    colorOps s.customColors
        (((cr.Settings >>> 32) &&& 0xFF : Nat) : Int)
        (((cr.Settings >>> 40) &&& 0xFF : Nat) : Int)
        (((cr.Settings >>> 48) &&& 0xFF : Nat) : Int)
      ++ [DrawOp.drawRect x (y - h + 12) w h, DrawOp.fillPath]
  else []

/-- The foreground-color case of the glyph loop (lines 1371-1385): when the
foreground-set flag (bit 0) is on, select the styled color, else the default
foreground. -/
def fgOps (s : Scaffold) (cr : ColoredRune) : List DrawOp :=
  if cr.Settings &&& 0x01 = 1 then
    colorOps s.customColors
      (((cr.Settings >>> 8) &&& 0xFF : Nat) : Int)
      (((cr.Settings >>> 16) &&& 0xFF : Nat) : Int)
      (((cr.Settings >>> 24) &&& 0xFF : Nat) : Int)
  else [DrawOp.setColor s.defaultForegroundColor]

/-- The per-character underline pass (lines 1405-1409): only when
`Settings & 0x1C == 16`, draw a line of the glyph's advance under the
baseline. -/
def underlineOps (s : Scaffold) (cr : ColoredRune) (x y w : ℚ) : List DrawOp :=
  if cr.Settings &&& 0x1C = 16 then
    [DrawOp.drawLine x (y + s.factor * 4) (x + w) (y + s.factor * 4),
      DrawOp.setLineWidth (s.factor * 1), DrawOp.strokePath]
  else []

/-- The glyph substitution of lines 1397-1399: unreliably rendered cross
glyphs are replaced with a canonical one. -/
def substituteSymbol (c : Char) : Char :=
  if c = '✗' ∨ c = 'ˣ' then '×' else c

/-- The glyph loop of `image` (lines 1334-1412): iterate the content with a
cursor; every character first selects a face and emits its background and
foreground color calls; a newline resets x and advances y, a tab advances x
by `tabSpaces` glyph widths, anything else is drawn (after substitution),
underlined when eligible, and advances x by its measured width. -/
def glyphOps (s : Scaffold) (m : FontMetrics) (xReset : ℚ) :
    List ColoredRune → ℚ → ℚ → List DrawOp
  | [], _, _ => []
  | cr :: rest, x, y =>
    let face := faceOfSettings cr.Settings
    let w := (m.measure face cr.Symbol).1
    let h := (m.measure face cr.Symbol).2
    let pre := DrawOp.setFontFace face :: (bgOps s cr x y w h ++ fgOps s cr)
    if cr.Symbol = '\n' then
      pre ++ glyphOps s m xReset rest xReset (y + h * s.lineSpacing)
    else if cr.Symbol = '\t' then
      pre ++ glyphOps s m xReset rest (x + w * (s.tabSpaces : ℚ)) y
    else
      pre ++ ([DrawOp.drawStr (substituteSymbol cr.Symbol) x y] ++ underlineOps s cr x y w)
        ++ glyphOps s m xReset rest (x + w) y

/-- The decoration accent colors (`red`, `yellow`, `green` constants). -/
def decorationColors : List String := ["#ED655A", "#E1C04C", "#71BD47"]

/-- `Scaffold.image` (lines 1255-1415): measure the content, floor the width
at the decoration footprint, lay out margins/paddings/title offset, then —
strictly in order — shadow (the external `stackblur.Process` is the
`stackblurProcess` parameter and its failure aborts the render), window body,
optional border, optional decoration circles, and the glyph pass; the result
is the ordered trace of drawing calls. -/
def image (s : Scaffold) (m : FontMetrics) (terminalCols : Nat)
    (stackblurProcess : List DrawOp → Nat → Except String (List DrawOp)) :
    Except String (List DrawOp) :=
  let corner := s.factor * 6
  let radius := s.factor * 9
  let distance := s.factor * 25
  let measured := measureContent s m terminalCols
  let contentWidth := max measured.1 (3 * distance + 3 * radius)
  let contentHeight := measured.2
  let titleOffset : ℚ := if s.drawDecorations then s.factor * 40 else 0
  let innerWidth := contentWidth + s.paddingLeft + s.paddingRight
  let innerHeight := contentHeight + s.paddingTop + s.paddingBottom + titleOffset
  let shadowStep : Except String (List DrawOp × ℚ × ℚ) :=
    if s.drawShadow then
      let xOffset := s.marginLeft - s.shadowOffsetX / 2
      let yOffset := s.marginTop - s.shadowOffsetY / 2
      let bcOps : List DrawOp :=
        [DrawOp.drawRoundedRect (xOffset + s.shadowOffsetX) (yOffset + s.shadowOffsetY)
            innerWidth innerHeight corner,
          DrawOp.setHexColor s.shadowBaseColor, DrawOp.fillPath]
      match stackblurProcess bcOps s.shadowRadius with
      | Except.error e => Except.error e
      | Except.ok shadow => Except.ok ([DrawOp.drawImage shadow 0 0], xOffset, yOffset)
    else Except.ok ([], s.marginLeft, s.marginTop)
  match shadowStep with
  | Except.error e => Except.error e
  | Except.ok (shadowOps, xOffset, yOffset) =>
    let windowOps :=
      [DrawOp.drawRoundedRect xOffset yOffset innerWidth innerHeight corner,
        DrawOp.setColor s.defaultBackgroundColor, DrawOp.fillPath]
    let borderOps :=
      if s.drawBorder then
        [DrawOp.drawRoundedRect xOffset yOffset innerWidth innerHeight corner,
          DrawOp.setHexColor "#404040", DrawOp.setLineWidth (s.factor * 1),
          DrawOp.strokePath]
      else []
    let decoOps :=
      if s.drawDecorations then
        (decorationColors.enum.map (fun p =>
          [DrawOp.drawCircle (xOffset + s.paddingLeft + (p.1 : ℚ) * distance + s.factor * 4)
              (yOffset + s.paddingTop + s.factor * 4) radius,
            DrawOp.setHexColor p.2, DrawOp.fillPath])).flatten
      else []
    let x0 := xOffset + s.paddingLeft
    let y0 := yOffset + s.paddingTop + titleOffset + m.fontHeight
    Except.ok (shadowOps ++ windowOps ++ borderOps ++ decoOps
      ++ glyphOps s m x0 s.content x0 y0)

/-- One pixel of the rendered raster as seen through `Color.RGBA()`
(component scaling preserves zeroness, which is all the clip pass reads). -/
structure Pixel where
  r : Nat
  g : Nat
  b : Nat
  a : Nat
deriving DecidableEq

/-- The rendered raster: a `gg`-produced `image.RGBA` whose bounds start at
the origin, with a pixel accessor. -/
structure Raster where
  width : Nat
  height : Nat
  pix : Nat → Nat → Pixel

/-- The transparency test of the clip pass (line 1442): all four components
of `At(x, y).RGBA()` are zero. -/
def isTransparent (p : Pixel) : Bool :=
  p.r == 0 && p.g == 0 && p.b == 0 && p.a == 0

/-- The bound-scanning double loop of `WritePNG` (lines 1435-1462): fold over
x (outer) and y (inner), updating `(minX, minY, maxX, maxY)` from the initial
`(math.MaxInt, math.MaxInt, 0, 0)` at every non-transparent pixel. -/
def clipScan (img : Raster) : Int × Int × Int × Int :=
  (List.range img.width).foldl (fun accX x =>
    (List.range img.height).foldl (fun (acc : Int × Int × Int × Int) y =>
      if isTransparent (img.pix x y) then acc
      else
        (if (x : Int) < acc.1 then (x : Int) else acc.1,
         if (y : Int) < acc.2.1 then (y : Int) else acc.2.1,
         if (x : Int) > acc.2.2.1 then (x : Int) else acc.2.2.1,
         if (y : Int) > acc.2.2.2 then (y : Int) else acc.2.2.2)) accX)
    (9223372036854775807, 9223372036854775807, 0, 0)

/-- A Go `image.Rectangle`: min inclusive, max exclusive. -/
structure GoRect where
  minX : Int
  minY : Int
  maxX : Int
  maxY : Int
deriving DecidableEq

/-- `image.Rect(x0, y0, x1, y1)`: swap coordinates so min ≤ max per axis. -/
def goRect (x0 y0 x1 y1 : Int) : GoRect :=
  ⟨if x0 > x1 then x1 else x0, if y0 > y1 then y1 else y0,
    if x0 > x1 then x0 else x1, if y0 > y1 then y0 else y1⟩

/-- `Rectangle.Intersect`, as used by `RGBA.SubImage`: clamp to both
rectangles and collapse to the zero rectangle when empty. -/
def rectIntersect (r q : GoRect) : GoRect :=
  let c : GoRect :=
    ⟨max r.minX q.minX, max r.minY q.minY, min r.maxX q.maxX, min r.maxY q.maxY⟩
  if c.minX ≥ c.maxX ∨ c.minY ≥ c.maxY then ⟨0, 0, 0, 0⟩ else c

/-- The crop handed to `png.Encode` by the clip-canvas branch of `WritePNG`
(line 1464): `SubImage(image.Rect(minX, minY, maxX, maxY))`, whose pixel set
is that rectangle intersected with the raster bounds. -/
def clipRect (img : Raster) : GoRect :=
  let b := clipScan img
  rectIntersect (goRect b.1 b.2.1 b.2.2.1 b.2.2.2)
    ⟨0, 0, (img.width : Int), (img.height : Int)⟩

/-- Membership of a pixel coordinate in a Go rectangle (min inclusive, max
exclusive). -/
def inRect (r : GoRect) (x y : Int) : Bool :=
  r.minX ≤ x && x < r.maxX && r.minY ≤ y && y < r.maxY

/-! Specification-side definitions, written from the spec's wording, used to
state the claims independently of the embedded loop structure. -/

/-- Wrap rule as the spec states it: walking the input from 1-based position
`i+1`, a synthetic newline carrying the triggering character's style bits is
inserted before every character whose position is a multiple of `cols + 1`;
all characters are kept unchanged. -/
def wrapSpecFrom (cols : Nat) : Nat → List ColoredRune → List ColoredRune
  | _, [] => []
  | i, cr :: rest =>
    (if (i + 1) % (cols + 1) = 0 then [⟨cr.Settings, '\n'⟩, cr] else [cr])
      ++ wrapSpecFrom cols (i + 1) rest

/-- No line of the input exceeds the column width: the logical column counter
(resuming from `counter`, reset at each newline) never passes `cols`. -/
def linesFit (cols : Nat) : Nat → List ColoredRune → Bool
  | _, [] => true
  | counter, cr :: rest =>
    if cr.Symbol = '\n' then linesFit cols 0 rest
    else counter + 1 ≤ cols && linesFit cols (counter + 1) rest

/-- The underline flag of the style bitfield (data-model §3): bit 4. -/
def underlineFlag (settings : Nat) : Bool :=
  (settings >>> 4) &&& 1 == 1

/-- A character accepted by the hex decoder. -/
def isHexDigit (ch : Char) : Bool :=
  (hexDigitValue ch).isSome

/-- Valid hex color strings as the spec words them: an optional leading `#`
followed by exactly six hexadecimal digits. -/
def validHexSpec (s : List Char) : Bool :=
  match s with
  | '#' :: rest => rest.length == 6 && rest.all isHexDigit
  | t => t.length == 6 && t.all isHexDigit

/-- The drawing-call trace predicate for the underline pass. -/
def isDrawLine : DrawOp → Bool
  | DrawOp.drawLine _ _ _ _ => true
  | _ => false

/-! Concrete sample values used by witnesses and counterexamples. -/

/-- A concrete scaffold for evaluating the embedded operations. -/
def sampleScaffold : Scaffold :=
  { content := []
    factor := 2
    columns := 4
    defaultForegroundColor := ⟨211, 211, 211, 255⟩
    defaultBackgroundColor := ⟨21, 21, 21, 255⟩
    customColors := none
    clipCanvas := false
    drawDecorations := false
    drawShadow := false
    drawBorder := true
    shadowBaseColor := "#10101066"
    shadowRadius := 32
    shadowOffsetX := 32
    shadowOffsetY := 32
    paddingTop := 48
    paddingRight := 48
    paddingBottom := 48
    paddingLeft := 48
    marginTop := 96
    marginRight := 96
    marginBottom := 96
    marginLeft := 96
    lineSpacing := 6/5
    tabSpaces := 2 }

/-- Concrete font metrics: every glyph 10 wide and 16 high. -/
def sampleMetrics : FontMetrics :=
  { fontHeight := 16
    lineWidth := fun l => (l.length : ℚ) * 10
    measure := fun _ _ => (10, 16) }

/-- A scheme state holding one previously loaded custom color. -/
def sampleSchemeState : SchemeState :=
  { customColors := some [((0 : Int), ⟨1, 2, 3, 255⟩)]
    defaultForegroundColor := ⟨10, 10, 10, 255⟩
    defaultBackgroundColor := ⟨20, 20, 20, 255⟩ }

/-- A one-by-one raster whose single pixel is opaque white. -/
def sampleRaster : Raster :=
  { width := 1, height := 1, pix := fun _ _ => ⟨255, 255, 255, 255⟩ }

/-- The sample scaffold with the shadow pass enabled. -/
def sampleScaffoldShadow : Scaffold :=
  { sampleScaffold with drawShadow := true }

/-- Six newline-free styled characters for exercising the wrap rule. -/
def sampleWrapInput : List ColoredRune :=
  [⟨1, 'a'⟩, ⟨2, 'b'⟩, ⟨3, 'c'⟩, ⟨4, 'd'⟩, ⟨5, 'e'⟩, ⟨6, 'f'⟩]

/-! Helper lemmas. -/

/-- If no line of the input overruns the column count, the wrap loop inserts
nothing. -/
theorem addContentLoop_of_linesFit (cols : Nat) :
    ∀ (input : List ColoredRune) (counter : Nat),
      linesFit cols counter input = true →
      addContentLoop cols counter input = input := by
  intro input
  induction input with
  | nil => intro counter _; rfl
  | cons cr rest ih =>
    intro counter h
    rw [linesFit] at h
    simp only [addContentLoop]
    by_cases hnl : cr.Symbol = '\n'
    · rw [if_pos hnl] at h
      rw [if_pos hnl]
      rw [if_neg (show ¬0 > cols by omega)]
      rw [ih 0 h]
    · rw [if_neg hnl] at h
      simp only [Bool.and_eq_true, decide_eq_true_eq] at h
      rw [if_neg hnl]
      rw [if_neg (show ¬counter + 1 > cols by omega)]
      rw [ih (counter + 1) h.2]

/-- The newline splitter never returns an empty list of pieces. -/
theorem splitOnNewline_ne_nil (s : List Char) : splitOnNewline s ≠ [] := by
  cases s with
  | nil => simp [splitOnNewline]
  | cons c rest =>
    rw [splitOnNewline]
    rcases splitOnNewline rest with _ | ⟨line, more⟩
    · simp
    · by_cases hc : c = '\n' <;> simp [hc]

/-- The number of pieces produced by the newline splitter is the newline
count plus one. -/
theorem splitOnNewline_length (s : List Char) :
    (splitOnNewline s).length = s.count '\n' + 1 := by
  induction s with
  | nil => rfl
  | cons c rest ih =>
    rw [splitOnNewline]
    rcases h : splitOnNewline rest with _ | ⟨line, more⟩
    · exact absurd h (splitOnNewline_ne_nil rest)
    · rw [h] at ih
      by_cases hc : c = '\n'
      · have hcount : (c :: rest).count '\n' = rest.count '\n' + 1 := by
          rw [List.count_cons]; simp [hc]
        rw [hcount]
        simp only [if_pos hc, List.length_cons] at ih ⊢
        omega
      · have hcount : (c :: rest).count '\n' = rest.count '\n' := by
          rw [List.count_cons]; simp [hc]
        rw [hcount]
        simp only [if_neg hc, List.length_cons] at ih ⊢
        omega

/-! Claim theorems. -/

/-- Claim C9: if `AddContent` fails because the input stream cannot be
decoded into styled symbols, the content buffer (indeed the whole scaffold)
is left unchanged, and the error is surfaced. -/
theorem addContent_decode_failure_atomic (s : Scaffold) (tc : Nat) (e : String) :
    (addContent s tc (Except.error e)).1 = s ∧
    (addContent s tc (Except.error e)).2
      = some ("failed to parse input stream: " ++ e) :=
  ⟨rfl, rfl⟩

/-- Claim C8: starting from an empty content buffer, appending decoded input
none of whose lines exceeds the fixed column width inserts no wrap newline,
so `WriteRaw` emits exactly the styled-text encoding (the external `bunt`
encoder `enc`) of that input, with no image rendering involved. -/
theorem writeRaw_roundtrip (enc : List ColoredRune → List Nat) (s : Scaffold)
    (tc : Nat) (input : List ColoredRune)
    (hempty : s.content = [])
    (hfit : linesFit (getFixedColumns s.columns tc) 0 input = true) :
    writeRaw enc (addContent s tc (Except.ok input)).1 = enc input := by
  simp only [writeRaw, addContent]
  rw [hempty, addContentLoop_of_linesFit _ input 0 hfit, List.nil_append]

/-- Witness for C8 at a concrete two-character line followed by a newline. -/
theorem writeRaw_roundtrip_witness :
    writeRaw (fun l => l.map (fun cr => cr.Symbol.toNat))
        (addContent sampleScaffold 80
          (Except.ok [⟨0, 'h'⟩, ⟨0, 'i'⟩, ⟨0, '\n'⟩])).1
      = (fun l : List ColoredRune => l.map (fun cr => cr.Symbol.toNat))
          [⟨0, 'h'⟩, ⟨0, 'i'⟩, ⟨0, '\n'⟩] :=
  writeRaw_roundtrip _ sampleScaffold 80 _ rfl (by decide)

/-- Claim C6: the measured height is the logical line count — newline count
after trimming one trailing newline, plus one — times font height times line
spacing; empty content still measures one line of height. -/
theorem measureContent_height (s : Scaffold) (m : FontMetrics) (tc : Nat) :
    (measureContent s m tc).2 =
      (((trimSuffixNewline (s.content.map (fun cr => cr.Symbol))).count '\n' + 1 : ℕ) : ℚ)
        * m.fontHeight * s.lineSpacing ∧
    (measureContent { s with content := [] } m tc).2 = m.fontHeight * s.lineSpacing := by
  constructor
  · simp only [measureContent, splitOnNewline_length]
  · simp [measureContent, trimSuffixNewline, splitOnNewline]

/-- Claim C4, evaluated at the failing input: the single opaque pixel of a
one-by-one raster is NOT contained in the crop rectangle the clip-canvas pass
hands to the encoder — the scan records inclusive maximum coordinates but
`image.Rect` treats them as exclusive, so the crop collapses to the empty
rectangle and the last non-transparent row and column are always cut off. -/
theorem clipRect_drops_boundary_pixel :
    isTransparent (sampleRaster.pix 0 0) = false ∧
    clipRect sampleRaster = ⟨0, 0, 0, 0⟩ ∧
    inRect (clipRect sampleRaster) 0 0 = false := by
  decide

/-- Counterexample to C2 as stated: loading a malformed colorscheme file
returns an error, yet the previously loaded custom colors are gone (the map
was reset before parsing). -/
theorem loadColorscheme_not_atomic :
    (loadColorscheme sampleSchemeState (some ColorschemeJson.malformed)).2 = true ∧
    (loadColorscheme sampleSchemeState (some ColorschemeJson.malformed)).1
      ≠ sampleSchemeState := by
  decide

/-- A failing `applyBackground` leaves the default background unchanged. -/
theorem applyBackground_error_bg (st : SchemeState) (colors : List (String × String))
    (h : (applyBackground st colors).2 = true) :
    (applyBackground st colors).1.defaultBackgroundColor = st.defaultBackgroundColor := by
  rcases hl : colors.lookup "background" with _ | bgHex
  · simp [applyBackground, hl]
  · rcases hp : parseHexColor bgHex.data with e | c
    · simp [applyBackground, hl, hp]
    · simp [applyBackground, hl, hp] at h

/-- A failing `applyScheme` leaves the default background unchanged. -/
theorem applyScheme_error_bg (st : SchemeState) (colors : List (String × String))
    (h : (applyScheme st colors).2 = true) :
    (applyScheme st colors).1.defaultBackgroundColor = st.defaultBackgroundColor := by
  rcases hl : loadColorsLoop colors (List.range 16) [] with ⟨cc, flag⟩
  cases flag with
  | true => simp [applyScheme, hl]
  | false =>
    rcases hf : colors.lookup "foreground" with _ | fgHex
    · have h2 : (applyBackground { st with customColors := some cc } colors).2 = true := by
        simpa [applyScheme, hl, hf] using h
      have h3 := applyBackground_error_bg { st with customColors := some cc } colors h2
      simpa [applyScheme, hl, hf] using h3
    · rcases hp : parseHexColor fgHex.data with e | c
      · simp [applyScheme, hl, hf, hp]
      · have h2 : (applyBackground
            { st with customColors := some cc, defaultForegroundColor := c } colors).2
              = true := by
          simpa [applyScheme, hl, hf, hp] using h
        have h3 := applyBackground_error_bg
          { st with customColors := some cc, defaultForegroundColor := c } colors h2
        simpa [applyScheme, hl, hf, hp] using h3

/-- Claim C2, amended: when `LoadColorscheme` fails, the default background
color is always untouched, and if the failure is a file-read failure (which
happens before any mutation) the whole color state — custom colors, default
foreground and default background — is exactly as before the call; a failure
after reading, however, has already reset the custom color map (see the
counterexample) and may have updated the default foreground. -/
theorem loadColorscheme_error_preserves (st : SchemeState) (file : Option ColorschemeJson)
    (herr : (loadColorscheme st file).2 = true) :
    (loadColorscheme st file).1.defaultBackgroundColor = st.defaultBackgroundColor ∧
    (file = none → (loadColorscheme st file).1 = st) := by
  cases file with
  | none => exact ⟨rfl, fun _ => rfl⟩
  | some parsed =>
    refine ⟨?_, fun h => Option.noConfusion h⟩
    cases parsed with
    | malformed => rfl
    | obj colors =>
      exact applyScheme_error_bg { st with customColors := some [] } colors herr
    | arr schemes =>
      cases schemes with
      | nil => rfl
      | cons scheme rest =>
        exact applyScheme_error_bg { st with customColors := some [] } scheme herr

/-- Witness for the amended C2 at a concrete malformed load. -/
theorem loadColorscheme_error_preserves_witness :
    (loadColorscheme sampleSchemeState
        (some ColorschemeJson.malformed)).1.defaultBackgroundColor
      = sampleSchemeState.defaultBackgroundColor ∧
    (some ColorschemeJson.malformed = (none : Option ColorschemeJson) →
      (loadColorscheme sampleSchemeState (some ColorschemeJson.malformed)).1
        = sampleSchemeState) :=
  loadColorscheme_error_preserves sampleSchemeState
    (some ColorschemeJson.malformed) (by decide)

/-- The minimum-distance fold keeps its accumulator at or above 10000 when it
starts there and every candidate distance is at or above 10000. -/
theorem closestStep_fold_ge (r g b : Int) :
    ∀ (l : List (Int × Int × Int × Int)) (acc : Int × Int),
      10000 ≤ acc.1 → (∀ e ∈ l, 10000 ≤ distSq r g b e) →
      10000 ≤ (l.foldl (closestStep r g b) acc).1 := by
  intro l
  induction l with
  | nil => intro acc hacc _; simpa using hacc
  | cons e rest ih =>
    intro acc hacc hall
    rw [List.foldl_cons]
    apply ih
    · unfold closestStep
      split
      · exact hall e (List.mem_cons_self e rest)
      · exact hacc
    · intro e2 he2
      exact hall e2 (List.mem_cons_of_mem e he2)

/-- Claim C5: with a custom colorscheme loaded, an RGB triple that hits no
entry of the exact-match table and whose squared distance to all 16 canonical
ANSI colors is at least the acceptance threshold 10000 is reported as
unmatched, so the caller falls back to the raw RGB value. -/
theorem mapStandardColor_no_match (cc : List (Int × RGBA)) (r g b : Int)
    (hexact : goMapLookup standardColorsList (r, g, b) = none)
    (hfar : ∀ e ∈ ansiColors, 10000 ≤ distSq r g b e) :
    mapStandardColor (some cc) r g b = none := by
  have h10k := closestStep_fold_ge r g b ansiColors
    (9223372036854775807, -1) (by norm_num) hfar
  simp only [mapStandardColor, hexact, findClosestColor]
  rw [if_neg]
  rintro ⟨_, hlt⟩
  omega

/-- Witness for C5 at the gray triple (70, 70, 70), which is distant from all
sixteen canonical colors and absent from the exact tables. -/
theorem mapStandardColor_no_match_witness :
    mapStandardColor (some [((0 : Int), ⟨1, 2, 3, 255⟩)]) 70 70 70 = none :=
  mapStandardColor_no_match [((0 : Int), ⟨1, 2, 3, 255⟩)] 70 70 70
    (by decide) (by decide)

/-- Setting a color emits no line-drawing call. -/
theorem colorOps_no_drawLine (cc : Option (List (Int × RGBA))) (r g b : Int) :
    (colorOps cc r g b).countP isDrawLine = 0 := by
  unfold colorOps
  cases h : mapStandardColor cc r g b <;> simp [List.countP_cons, isDrawLine]

/-- The background-cell pass emits no line-drawing call. -/
theorem bgOps_no_drawLine (s : Scaffold) (cr : ColoredRune) (x y w h : ℚ) :
    (bgOps s cr x y w h).countP isDrawLine = 0 := by
  unfold bgOps
  split
  · rw [List.countP_append, colorOps_no_drawLine]
    simp [List.countP_cons, isDrawLine]
  · rfl

/-- The foreground-color pass emits no line-drawing call. -/
theorem fgOps_no_drawLine (s : Scaffold) (cr : ColoredRune) :
    (fgOps s cr).countP isDrawLine = 0 := by
  unfold fgOps
  split
  · exact colorOps_no_drawLine _ _ _ _
  · simp [List.countP_cons, isDrawLine]

/-- The underline pass emits exactly one line-drawing call when
`Settings & 0x1C == 16`, and none otherwise. -/
theorem underlineOps_drawLine_count (s : Scaffold) (cr : ColoredRune) (x y w : ℚ) :
    (underlineOps s cr x y w).countP isDrawLine
      = if cr.Settings &&& 0x1C = 16 then 1 else 0 := by
  unfold underlineOps
  split <;> simp [List.countP_cons, isDrawLine]

/-- Claim C3, amended: the glyph pass draws one underline exactly for each
symbol whose style bits satisfy `Settings & 0x1C == 16` — the underline flag
set AND the emphasis code normal — and draws none for a symbol whose
underline flag is combined with bold or italic (see the counterexample);
when drawn, the line spans the glyph's advance width at the fixed offset
below the baseline. -/
theorem glyphOps_underline (s : Scaffold) (m : FontMetrics) (xr : ℚ)
    (content : List ColoredRune) (x y : ℚ) :
    ((glyphOps s m xr content x y).countP isDrawLine
      = content.countP (fun cr =>
          (cr.Settings &&& 0x1C == 16)
            && !(cr.Symbol == '\n') && !(cr.Symbol == '\t'))) ∧
    (∀ settings : Nat, ∀ sym : Char, sym ≠ '\n' → sym ≠ '\t' →
      settings &&& 0x1C = 16 →
      DrawOp.drawLine x (y + s.factor * 4)
          (x + (m.measure (faceOfSettings settings) sym).1) (y + s.factor * 4)
        ∈ glyphOps s m xr [⟨settings, sym⟩] x y) := by
  constructor
  · induction content generalizing x y with
    | nil => rfl
    | cons cr rest ih =>
      rw [glyphOps]
      by_cases hnl : cr.Symbol = '\n'
      · rw [if_pos hnl]
        simp [List.countP_cons, List.countP_append, isDrawLine,
          bgOps_no_drawLine, fgOps_no_drawLine, ih, hnl]
      · rw [if_neg hnl]
        by_cases htab : cr.Symbol = '\t'
        · rw [if_pos htab]
          simp [List.countP_cons, List.countP_append, isDrawLine,
            bgOps_no_drawLine, fgOps_no_drawLine, ih, hnl, htab]
        · rw [if_neg htab]
          simp [List.countP_cons, List.countP_append, isDrawLine,
            bgOps_no_drawLine, fgOps_no_drawLine,
            underlineOps_drawLine_count, ih, hnl, htab]
          omega
  · intro settings sym hnl htab hcond
    rw [glyphOps]
    rw [if_neg hnl, if_neg htab]
    unfold underlineOps
    rw [if_pos hcond]
    simp

/-- Counterexample to C3 as stated: style bits 20 have the underline flag set
together with the bold emphasis bit, yet the glyph pass draws no line for
such a symbol (`Settings & 0x1C` is 20, not 16). -/
theorem glyphOps_underline_ignored_when_bold :
    underlineFlag 20 = true ∧
    (glyphOps sampleScaffold sampleMetrics 0 [⟨20, 'A'⟩] 0 0).any isDrawLine = false := by
  decide

/-- Witness for the amended C3 at a normal-emphasis underlined symbol. -/
theorem glyphOps_underline_witness :
    ((glyphOps sampleScaffold sampleMetrics 0 [⟨16, 'A'⟩] 0 0).countP isDrawLine
      = ([⟨16, 'A'⟩] : List ColoredRune).countP (fun cr =>
          (cr.Settings &&& 0x1C == 16)
            && !(cr.Symbol == '\n') && !(cr.Symbol == '\t'))) ∧
    DrawOp.drawLine 0 (0 + sampleScaffold.factor * 4)
        (0 + (sampleMetrics.measure (faceOfSettings 16) 'A').1)
        (0 + sampleScaffold.factor * 4)
      ∈ glyphOps sampleScaffold sampleMetrics 0 [⟨16, 'A'⟩] 0 0 :=
  ⟨(glyphOps_underline sampleScaffold sampleMetrics 0 [⟨16, 'A'⟩] 0 0).1,
    (glyphOps_underline sampleScaffold sampleMetrics 0 [⟨16, 'A'⟩] 0 0).2
      16 'A' (by decide) (by decide) rfl⟩

/-- Claim C7: the render stage can fail only through the external blur filter
during shadow compositing — with the shadow toggle off, `image` always
produces a raster (trace); when the blur filter fails, that error is
propagated and nothing else is returned. -/
theorem image_error_structure (s : Scaffold) (m : FontMetrics) (tc : Nat)
    (blurFn : List DrawOp → Nat → Except String (List DrawOp)) :
    (s.drawShadow = false →
      ∃ ops, image s m tc blurFn = Except.ok ops) ∧
    (∀ e : String, (∀ ops radius, blurFn ops radius = Except.error e) →
      s.drawShadow = true → image s m tc blurFn = Except.error e) := by
  constructor
  · intro hs
    simp only [image, hs, if_false, Bool.false_eq_true]
    exact ⟨_, rfl⟩
  · intro e hblur hs
    simp only [image, hs, if_true, hblur]

/-- Witness for C7: with the shadow off the render succeeds regardless of the
blur filter, and with the shadow on an always-failing blur filter aborts the
render with its error. -/
theorem image_error_structure_witness :
    (∃ ops, image sampleScaffold sampleMetrics 80 (fun ops _ => Except.ok ops)
      = Except.ok ops) ∧
    image sampleScaffoldShadow sampleMetrics 80 (fun _ _ => Except.error "blur failed")
      = Except.error "blur failed" :=
  ⟨(image_error_structure sampleScaffold sampleMetrics 80 _).1 rfl,
    (image_error_structure sampleScaffoldShadow sampleMetrics 80 _).2
      "blur failed" (fun _ _ => rfl) rfl⟩

/-- Conditional characterization of the hash-stripping step. -/
theorem trimHashChar_cons (c : Char) (rest : List Char) :
    trimHashChar (c :: rest) = if c = '#' then rest else c :: rest := by
  by_cases hc : c = '#'
  · subst hc
    rw [if_pos rfl]
    rfl
  · rw [if_neg hc]
    unfold trimHashChar
    split
    · next heq =>
      rw [List.cons.injEq] at heq
      exact absurd heq.1 hc
    · rfl

/-- The spec-side validity test agrees with testing the trimmed string. -/
theorem validHexSpec_eq (s : List Char) :
    validHexSpec s
      = ((trimHashChar s).length == 6 && (trimHashChar s).all isHexDigit) := by
  cases s with
  | nil => rfl
  | cons c rest =>
    rw [trimHashChar_cons]
    by_cases hc : c = '#'
    · rw [if_pos hc]
      subst hc
      rfl
    · rw [if_neg hc]
      unfold validHexSpec
      split
      · next heq =>
        rw [List.cons.injEq] at heq
        exact absurd heq.1 hc
      · rfl

/-- Claim C10: `parseHexColor` succeeds exactly on an optional leading `#`
followed by exactly six hexadecimal digits, and then returns the fully opaque
color whose components are the three decoded bytes; any other input yields an
error and no color. -/
theorem parseHexColor_spec (s : List Char) :
    (isOkResult (parseHexColor s) = validHexSpec s) ∧
    (∀ c : RGBA, parseHexColor s = Except.ok c →
      c.a = 255 ∧ hexDecode (trimHashChar s) = some [c.r, c.g, c.b]) := by
  rw [validHexSpec_eq]
  simp only [parseHexColor]
  generalize trimHashChar s = t
  by_cases hlen : t.length = 6
  · rw [if_neg (not_not_intro hlen)]
    obtain ⟨a, b, c2, d, e2, f, rfl⟩ :
        ∃ a b c2 d e2 f, t = [a, b, c2, d, e2, f] := by
      rcases t with _ | ⟨a, _ | ⟨b, _ | ⟨c2, _ | ⟨d, _ | ⟨e2, _ | ⟨f, _ | ⟨g, r⟩⟩⟩⟩⟩⟩⟩ <;>
        first
          | exact ⟨_, _, _, _, _, _, rfl⟩
          | (exfalso; simp at hlen)
    constructor
    · cases h1 : hexDigitValue a <;> cases h2 : hexDigitValue b <;>
        cases h3 : hexDigitValue c2 <;> cases h4 : hexDigitValue d <;>
        cases h5 : hexDigitValue e2 <;> cases h6 : hexDigitValue f <;>
        simp [hexDecode, isHexDigit, isOkResult, h1, h2, h3, h4, h5, h6]
    · intro c hc
      revert hc
      cases h1 : hexDigitValue a <;> cases h2 : hexDigitValue b <;>
        cases h3 : hexDigitValue c2 <;> cases h4 : hexDigitValue d <;>
        cases h5 : hexDigitValue e2 <;> cases h6 : hexDigitValue f <;>
        simp [hexDecode, h1, h2, h3, h4, h5, h6]
      intro hc
      subst hc
      simp
  · constructor
    · rw [if_pos hlen]
      have : (t.length == 6) = false := by
        simpa using hlen
      simp [isOkResult, this]
    · intro c hc
      rw [if_pos hlen] at hc
      exact Except.noConfusion hc

/-- Witness for C10 at the valid mixed-case input `#1a2B3c`. -/
theorem parseHexColor_spec_witness :
    (isOkResult (parseHexColor "#1a2B3c".data) = validHexSpec "#1a2B3c".data) ∧
    ((⟨26, 43, 60, 255⟩ : RGBA).a = 255 ∧
      hexDecode (trimHashChar "#1a2B3c".data) = some [26, 43, 60]) :=
  ⟨(parseHexColor_spec "#1a2B3c".data).1,
    (parseHexColor_spec "#1a2B3c".data).2 ⟨26, 43, 60, 255⟩ (by rfl)⟩

/-- Stepping the position by one steps its remainder modulo the wrap period,
rolling over to zero exactly at the column bound. -/
theorem wrap_mod_succ (c i : Nat) (hc : 1 ≤ c) :
    (i + 1) % (c + 1) = if i % (c + 1) = c then 0 else i % (c + 1) + 1 := by
  have h1 : (i + 1) % (c + 1) = ((i % (c + 1)) + 1) % (c + 1) := by
    conv_lhs => rw [Nat.add_mod]
    rw [Nat.mod_eq_of_lt (show 1 < c + 1 by omega)]
  rw [h1]
  by_cases h : i % (c + 1) = c
  · rw [if_pos h, h, Nat.mod_self]
  · rw [if_neg h]
    have hlt : i % (c + 1) < c + 1 := Nat.mod_lt _ (by omega)
    exact Nat.mod_eq_of_lt (by omega)

/-- The wrap loop of `AddContent`, started at a counter congruent to the
1-based position `i`, produces exactly the spec-side insertion of one newline
per `c + 1` characters. -/
theorem addContentLoop_eq_wrapSpec (c : Nat) (hc : 1 ≤ c) :
    ∀ (input : List ColoredRune), (∀ cr ∈ input, cr.Symbol ≠ '\n') →
      ∀ i : Nat, addContentLoop c (i % (c + 1)) input = wrapSpecFrom c i input := by
  intro input
  induction input with
  | nil => intro _ i; rfl
  | cons cr rest ih =>
    intro h i
    have hcr : cr.Symbol ≠ '\n' := h cr (List.mem_cons_self cr rest)
    have hrest : ∀ x ∈ rest, x.Symbol ≠ '\n' :=
      fun x hx => h x (List.mem_cons_of_mem cr hx)
    have hmodlt : i % (c + 1) < c + 1 := Nat.mod_lt _ (by omega)
    simp only [addContentLoop, wrapSpecFrom]
    rw [if_neg hcr]
    by_cases hwrap : i % (c + 1) = c
    · have hcond : i % (c + 1) + 1 > c := by omega
      have hzero : (i + 1) % (c + 1) = 0 := by
        rw [wrap_mod_succ c i hc, if_pos hwrap]
      rw [if_pos hcond, if_pos hzero]
      have hrec := ih hrest (i + 1)
      rw [hzero] at hrec
      rw [hrec]
      rfl
    · have hcond : ¬i % (c + 1) + 1 > c := by omega
      have hsucc : (i + 1) % (c + 1) = i % (c + 1) + 1 := by
        rw [wrap_mod_succ c i hc, if_neg hwrap]
      have hne : ¬(i + 1) % (c + 1) = 0 := by
        rw [hsucc]; exact Nat.succ_ne_zero _
      rw [if_neg hcond, if_neg hne]
      have hrec := ih hrest (i + 1)
      rw [hsucc] at hrec
      rw [hrec]
      rfl

/-- Erasing the inserted newlines from the spec-side wrapped output recovers
the input unchanged. -/
theorem wrapSpecFrom_filter_keep (c : Nat) :
    ∀ (input : List ColoredRune), (∀ cr ∈ input, cr.Symbol ≠ '\n') →
      ∀ i, (wrapSpecFrom c i input).filter (fun cr => !(cr.Symbol == '\n')) = input := by
  intro input
  induction input with
  | nil => intro _ i; rfl
  | cons cr rest ih =>
    intro h i
    have hcr : cr.Symbol ≠ '\n' := h cr (List.mem_cons_self cr rest)
    have hrest : ∀ x ∈ rest, x.Symbol ≠ '\n' :=
      fun x hx => h x (List.mem_cons_of_mem cr hx)
    rw [wrapSpecFrom, List.filter_append, ih hrest (i + 1)]
    by_cases hdvd : (i + 1) % (c + 1) = 0
    · rw [if_pos hdvd]
      simp [hcr]
    · rw [if_neg hdvd]
      simp [hcr]

/-- The number of newlines in the spec-side wrapped output of a newline-free
input is the number of multiples of `c + 1` among its 1-based positions. -/
theorem wrapSpecFrom_filter_nl (c : Nat) :
    ∀ (input : List ColoredRune), (∀ cr ∈ input, cr.Symbol ≠ '\n') →
      ∀ i, ((wrapSpecFrom c i input).filter (fun cr => cr.Symbol == '\n')).length
        = (i + input.length) / (c + 1) - i / (c + 1) := by
  intro input
  induction input with
  | nil => intro _ i; simp [wrapSpecFrom]
  | cons cr rest ih =>
    intro h i
    have hcr : cr.Symbol ≠ '\n' := h cr (List.mem_cons_self cr rest)
    have hrest : ∀ x ∈ rest, x.Symbol ≠ '\n' :=
      fun x hx => h x (List.mem_cons_of_mem cr hx)
    have hmono : (i + 1) / (c + 1) ≤ (i + 1 + rest.length) / (c + 1) :=
      Nat.div_le_div_right (by omega)
    rw [wrapSpecFrom, List.filter_append, List.length_append, ih hrest (i + 1)]
    simp only [List.length_cons]
    rw [show i + (rest.length + 1) = i + 1 + rest.length from by omega]
    by_cases hdvd : (i + 1) % (c + 1) = 0
    · have hdv : (c + 1) ∣ (i + 1) := Nat.dvd_of_mod_eq_zero hdvd
      have hb : (i + 1) / (c + 1) = i / (c + 1) + 1 := by
        rw [Nat.succ_div, if_pos hdv]
      rw [if_pos hdvd]
      have hfl : (List.filter (fun cr => cr.Symbol == '\n')
          [⟨cr.Settings, '\n'⟩, cr]).length = 1 := by
        simp [hcr]
      rw [hfl]
      generalize hA : i / (c + 1) = A at hb
      generalize hB : (i + 1) / (c + 1) = B at hb hmono
      generalize hD : (i + 1 + rest.length) / (c + 1) = D at hmono
      omega
    · have hndv : ¬(c + 1) ∣ (i + 1) :=
        fun hdv => hdvd (Nat.mod_eq_zero_of_dvd hdv)
      have hb : (i + 1) / (c + 1) = i / (c + 1) := by
        rw [Nat.succ_div, if_neg hndv, Nat.add_zero]
      rw [if_neg hdvd]
      have hfl : (List.filter (fun cr => cr.Symbol == '\n') [cr]).length = 0 := by
        simp [hcr]
      rw [hfl]
      generalize hA : i / (c + 1) = A at hb
      generalize hB : (i + 1) / (c + 1) = B at hb hmono
      generalize hD : (i + 1 + rest.length) / (c + 1) = D at hmono
      omega

/-- Claim C1: with a fixed column width `c ≥ 1` and a newline-free decoded
input, `AddContent` appends the input with exactly one synthetic newline
inserted per `c + 1` characters — before each character whose 1-based
position is a multiple of `c + 1`, i.e. the character driving the column
counter past `c` — carrying that character's style bits (`wrapSpecFrom`);
the inserted-newline count is `length / (c + 1)` and erasing the inserted
newlines recovers the input unchanged. -/
theorem addContent_wrap (s : Scaffold) (tc : Nat) (c : Nat)
    (input : List ColoredRune)
    (hcols : s.columns = c) (hc : 1 ≤ c)
    (hnl : ∀ cr ∈ input, cr.Symbol ≠ '\n') :
    (addContent s tc (Except.ok input)).1.content
        = s.content ++ wrapSpecFrom c 0 input ∧
    ((wrapSpecFrom c 0 input).filter (fun cr => cr.Symbol == '\n')).length
        = input.length / (c + 1) ∧
    (wrapSpecFrom c 0 input).filter (fun cr => !(cr.Symbol == '\n')) = input := by
  have hgfc : getFixedColumns s.columns tc = c := by
    rw [hcols]
    unfold getFixedColumns
    rw [if_pos (by omega)]
  refine ⟨?_, ?_, ?_⟩
  · simp only [addContent]
    rw [hgfc]
    have h0 := addContentLoop_eq_wrapSpec c hc input hnl 0
    rw [Nat.zero_mod] at h0
    rw [h0]
  · have h1 := wrapSpecFrom_filter_nl c input hnl 0
    simpa using h1
  · exact wrapSpecFrom_filter_keep c input hnl 0

/-- Witness for C1: six newline-free characters at column width 4 receive
exactly one inserted newline. -/
theorem addContent_wrap_witness :
    (addContent sampleScaffold 80 (Except.ok sampleWrapInput)).1.content
        = sampleScaffold.content ++ wrapSpecFrom 4 0 sampleWrapInput ∧
    ((wrapSpecFrom 4 0 sampleWrapInput).filter (fun cr => cr.Symbol == '\n')).length
        = sampleWrapInput.length / (4 + 1) ∧
    (wrapSpecFrom 4 0 sampleWrapInput).filter (fun cr => !(cr.Symbol == '\n'))
        = sampleWrapInput :=
  addContent_wrap sampleScaffold 80 4 sampleWrapInput rfl (by decide) (by decide)

end Termshot
